import Mathlib

/-! # Foot-traffic simulation: formal model

Shallow embedding of the agent-based foot traffic simulation
(`run_simulation` in `simulate.py`).  Real-valued quantities drawn from the
random distributions (hours, durations, sampling draws) are modelled as
rationals, and the Python float modulo `x % 24` is modelled exactly by
`pmod24`.  Library calls are modelled by their documented input/output
behaviour: a pandas weighted draw (`DataFrame.sample(1, weights=...)`) is
inverse-CDF selection from a uniform draw over `[0, total weight)`, a
uniform choice among `n` candidates is selection at an arbitrary index, and
a networkx routing query either yields the list of traversed edges or
reports that no path exists (`nx.NetworkXNoPath`).
-/

namespace FootTraffic

/-- Road-network edge identifier `(u, v, key)`, the index of the edges
GeoDataFrame obtained from `ox.graph_to_gdfs(roads)`. -/
abbrev EdgeId := ℕ × ℕ × ℕ

/-- Commute modes used by `define_acs_variables`: `wfh` plus the five
commuting modes of ACS table B08132. -/
inductive Mode
  | wfh
  | drive
  | carpool
  | transit
  | walk
  | other
  deriving DecidableEq

/-- The five activity states an agent hour is classified into
(spec section 4.1). -/
inductive AState
  | asleep
  | atHome
  | commutingOut
  | atWork
  | commutingBack
  deriving DecidableEq

/-- Python float modulo with modulus 24 (`x % 24`), exact on rationals;
the result lies in `[0, 24)` for every input. -/
def pmod24 (x : ℚ) : ℚ := x - 24 * ⌊x / 24⌋

/-- `is_sleeping` for a commuter agent (simulate.py lines 205-206):
`(sleep_start <= hour < sleep_start + dur) or
 (sleep_start + dur > 24 and hour < (sleep_start + dur) % 24)`. -/
def asleepAt (s d : ℚ) (h : ℕ) : Prop :=
  (s ≤ (h : ℚ) ∧ (h : ℚ) < s + d) ∨ (24 < s + d ∧ (h : ℚ) < pmod24 (s + d))

instance (s d : ℚ) (h : ℕ) : Decidable (asleepAt s d h) := by
  unfold asleepAt
  infer_instance

/-- Number of integer hours of the day inside the (wrap-aware) sleep
interval, counted with the commuter-branch sleep test. -/
def sleepHourCount (s d : ℚ) : ℕ :=
  ((List.range 24).filter (fun h => decide (asleepAt s d h))).length

/-- The sleep test of the work-from-home branch (simulate.py line 176):
`sleep_start <= hour < (sleep_start + dur) % 24` — note the missing
wraparound disjunct compared to `asleepAt`. -/
def wfhAsleepTest (s d : ℚ) (h : ℕ) : Prop :=
  s ≤ (h : ℚ) ∧ (h : ℚ) < pmod24 (s + d)

instance (s d : ℚ) (h : ℕ) : Decidable (wfhAsleepTest s d h) := by
  unfold wfhAsleepTest
  infer_instance

/-- Hours for which the work-from-home branch credits the home edge
(simulate.py lines 175-177): every hour of `range(24)` failing the
sleep test of that branch. -/
def wfhHomeCreditHours (s d : ℚ) : List ℕ :=
  (List.range 24).filter (fun h => decide (¬ wfhAsleepTest s d h))

/-- Per-day `(hour, edge)` credits of a work-from-home agent: one home-edge
credit per hour passing the awake test; no other edge is ever touched. -/
def wfhAgentCredits (s d : ℚ) (homeE : EdgeId) : List (ℕ × EdgeId) :=
  (wfhHomeCreditHours s d).map (fun h => (h, homeE))

/-- The hour classifier implicit in the `if`/`elif` chain of the commuter
branch (simulate.py lines 204-229), in source order: sleep test first, then
at-home (`hour < departure or hour >= return_arrival`), at-work
(`arrival <= hour < return_departure`), commuting-out
(`departure <= hour < arrival`), and the fall-through else, which is the
return commute (`return_departure <= hour < return_arrival`).  Here
`arrival = dep + c`, `return_departure = dep + c + 8`,
`return_arrival = dep + c + 8 + c` (lines 195-198). -/
def classifyHour (dep c s d : ℚ) (h : ℕ) : AState :=
  if asleepAt s d h then AState.asleep
  else if (h : ℚ) < dep ∨ dep + c + 8 + c ≤ (h : ℚ) then AState.atHome
  else if dep + c ≤ (h : ℚ) ∧ (h : ℚ) < dep + c + 8 then AState.atWork
  else if dep ≤ (h : ℚ) ∧ (h : ℚ) < dep + c then AState.commutingOut
  else AState.commutingBack

/-- The five hour-sets of the schedule, written as direct interval
conditions (not via `classifyHour`): the asleep set, and — for awake
hours — at-home `[0, dep) ∪ [ra, 24)`, at-work `[arr, rd)`, commuting-out
`[dep, arr)` and commuting-back `[rd, ra)`, where `arr = dep + c`,
`rd = arr + 8`, `ra = rd + c`. -/
def inState (dep c s d : ℚ) (h : ℕ) : AState → Prop
  | AState.asleep => asleepAt s d h
  | AState.atHome =>
      ¬ asleepAt s d h ∧ ((h : ℚ) < dep ∨ dep + c + 8 + c ≤ (h : ℚ))
  | AState.atWork =>
      ¬ asleepAt s d h ∧ (dep + c ≤ (h : ℚ) ∧ (h : ℚ) < dep + c + 8)
  | AState.commutingOut =>
      ¬ asleepAt s d h ∧ (dep ≤ (h : ℚ) ∧ (h : ℚ) < dep + c)
  | AState.commutingBack =>
      ¬ asleepAt s d h ∧ (dep + c + 8 ≤ (h : ℚ) ∧ (h : ℚ) < dep + c + 8 + c)

/-- The list of edges credited at hour `h` for a commuter agent
(simulate.py lines 204-229).  `route` is the answer of the routing oracle for
the shortest path (by length) from node `u` of the home edge to node `v`
of the work edge: `some p` is the traversed edge list, `none` models
`nx.NetworkXNoPath`.  Asleep hours and the fall-through return-commute
hours credit nothing; drive/carpool commuting hours have no branch and
credit nothing. -/
def commuteHourCredits (m : Mode) (dep c s d : ℚ) (homeE workE : EdgeId)
    (route : Option (List EdgeId)) (h : ℕ) : List EdgeId :=
  match classifyHour dep c s d h with
  | AState.asleep => []
  | AState.atHome => [homeE]
  | AState.atWork => [workE]
  | AState.commutingOut =>
      match m with
      | Mode.walk | Mode.other =>
          match route with
          | some p => p
          | none => [homeE]
      | Mode.transit => [homeE, workE]
      | _ => []
  | AState.commutingBack => []

/-- Whole-day `(hour, edge)` credits of a commuter agent:
`for hour in range(24)` applied to `commuteHourCredits`. -/
def agentDayCredits (m : Mode) (dep c s d : ℚ) (homeE workE : EdgeId)
    (route : Option (List EdgeId)) : List (ℕ × EdgeId) :=
  (List.range 24).flatMap
    (fun h => (commuteHourCredits m dep c s d homeE workE route h).map (fun e => (h, e)))

/-- The `hourly_foot_traffic` state: for each hour, the `foot_traffic`
counter of each edge (simulate.py line 135; absent edges read 0). -/
def Counters : Type := ℕ → EdgeId → ℕ

/-- All counters start at 0 (`foot_traffic` column set to 0, simulate.py line 134). -/
def initCounters : Counters := fun _ _ => 0

/-- One `+= 1` increment of the `foot_traffic` counter of one edge at hour `h`. -/
def creditOne (st : Counters) (h : ℕ) (e : EdgeId) : Counters :=
  fun h' e' => if h' = h ∧ e' = e then st h' e' + 1 else st h' e'

/-- Apply a list of `(hour, edge)` credits in order. -/
def applyCredits (st : Counters) : List (ℕ × EdgeId) → Counters
  | [] => st
  | c :: rest => applyCredits (creditOne st c.1 c.2) rest

/-- Finalization (simulate.py lines 234-239): for each hour of `range(24)`
keep the rows with `foot_traffic > 0`, emitting `(edge, hour, count)`
records over the full edge set `es`. -/
def finalizeTable (es : List EdgeId) (st : Counters) : List (EdgeId × ℕ × ℕ) :=
  (List.range 24).flatMap
    (fun h => (es.filter (fun e => decide (0 < st h e))).map (fun e => (e, h, st h e)))

/-- One LODES origin-destination row: home geocode, work geocode, and the
total-jobs weight `S000`. -/
structure FlowRecord where
  h_geocode : String
  w_geocode : String
  S000 : ℚ

/-- The rows of the flow table whose home geocode matches the current
tract (the filter of `lodes_data` rows on `h_geocode` equal to the home tract
geoid, simulate.py line 157). -/
def odPairsFor (lodes : List FlowRecord) (home : String) : List FlowRecord :=
  lodes.filter (fun r => r.h_geocode = home)

/-- Inverse-CDF weighted selection: given the weight list and a uniform
draw `u ∈ [0, total)`, return the index of the record whose cumulative
weight interval contains `u`.  This is the model of
`DataFrame.sample(1, weights=S000)` (simulate.py line 184). -/
def pickWeighted : List ℚ → ℚ → ℕ
  | [], _ => 0
  | w :: ws, u => if u < w then 0 else pickWeighted ws (u - w) + 1

/-- Destination sampling (simulate.py lines 181-184): an empty
origin-destination table abandons the agent (`continue`); otherwise one
record is drawn with probability proportional to its `S000` weight. -/
def sampleDestination (od : List FlowRecord) (u : ℚ) : Option FlowRecord :=
  if od.isEmpty then none
  else od[pickWeighted (od.map FlowRecord.S000) u]?

/-- One agent of the inner loop (simulate.py lines 164-229), with every
random draw made explicit: `homeGeom` is the home-tract geometry lookup
(`none` models the `IndexError` of line 149), `homeRoads` the edges
intersecting the home tract, `kHome`/`kWork` the uniform edge-sample
indices, `d` the sleep duration, `workStart` the work-from-home start
draw, `od`/`uDest` the destination table and its sampling draw,
`workGeomOf`/`workRoadsOf` the work-tract geometry and edge lookups,
`dep`/`c` the departure and commute-duration draws, `route` the answer of the routing
oracle.  Every failure path of the source (`continue`) returns
the empty credit list. -/
def simulateAgent (m : Mode) (homeGeom : Option Unit) (homeRoads : List EdgeId)
    (kHome : ℕ) (d workStart : ℚ) (od : List FlowRecord) (uDest : ℚ)
    (workGeomOf : String → Option Unit) (workRoadsOf : String → List EdgeId)
    (kWork : ℕ) (dep c : ℚ) (route : Option (List EdgeId)) : List (ℕ × EdgeId) :=
  match homeGeom with
  | none => []
  | some _ =>
    if homeRoads.isEmpty then []
    else
      match homeRoads[kHome % homeRoads.length]? with
      | none => []
      | some homeE =>
        if m = Mode.wfh then
          wfhAgentCredits (pmod24 (workStart - d - 1 + 24)) d homeE
        else
          match sampleDestination od uDest with
          | none => []
          | some r =>
            match workGeomOf r.w_geocode with
            | none => []
            | some _ =>
              if (workRoadsOf r.w_geocode).isEmpty then []
              else
                match (workRoadsOf r.w_geocode)[kWork % (workRoadsOf r.w_geocode).length]? with
                | none => []
                | some workE =>
                  agentDayCredits m dep c (pmod24 (dep - d - 1 + 24)) d homeE workE route

/-- The agents generated for one `(mode, time-window)` variable of a tract
(simulate.py lines 160-164): none when the reported worker count is not
positive, else one per unit of the count. -/
def agentsForVariable (numWorkers : ℤ) : List ℕ :=
  if numWorkers ≤ 0 then [] else List.range numWorkers.toNat

/-- All `(hour, edge)` credits produced for one variable: concatenation of
the per-agent credits over `agentsForVariable`. -/
def simulateVariable (numWorkers : ℤ) (credits : ℕ → List (ℕ × EdgeId)) :
    List (ℕ × EdgeId) :=
  (agentsForVariable numWorkers).flatMap credits


/-! ## Claim theorems -/

/-- C1: for every commuter agent (any departure time, positive commute
duration, any sleep parameters) and every integer hour, the five hour-sets
asleep / at-home / commuting-out / at-work / commuting-back partition the
day with no gap or overlap: a state holds at an hour exactly when the
source classifier lands on it, so exactly one of the five holds per hour,
including when the sleep interval wraps past midnight. -/
theorem schedule_partition (dep c s d : ℚ) (h : ℕ) (hc : 0 < c) (st : AState) :
    inState dep c s d h st ↔ classifyHour dep c s d h = st := by
  unfold classifyHour
  split_ifs with h1 h2 h3 h4
  · cases st <;> simp only [inState, reduceCtorEq, iff_true, iff_false]
    · exact h1
    · exact fun hx => hx.1 h1
    · exact fun hx => hx.1 h1
    · exact fun hx => hx.1 h1
    · exact fun hx => hx.1 h1
  · cases st <;> simp only [inState, reduceCtorEq, iff_true, iff_false]
    · exact h1
    · exact ⟨h1, h2⟩
    · rintro ⟨-, hx1, hx2⟩
      rcases h2 with h2 | h2 <;> linarith
    · rintro ⟨-, hx1, hx2⟩
      rcases h2 with h2 | h2 <;> linarith
    · rintro ⟨-, hx1, hx2⟩
      rcases h2 with h2 | h2 <;> linarith
  · push_neg at h2
    cases st <;> simp only [inState, reduceCtorEq, iff_true, iff_false]
    · exact h1
    · rintro ⟨-, hx | hx⟩ <;> linarith [h2.1, h2.2]
    · rintro ⟨-, hx1, hx2⟩
      linarith [h3.1]
    · exact ⟨h1, h3⟩
    · rintro ⟨-, hx1, hx2⟩
      linarith [h3.2]
  · push_neg at h2
    cases st <;> simp only [inState, reduceCtorEq, iff_true, iff_false]
    · exact h1
    · rintro ⟨-, hx | hx⟩ <;> linarith [h4.1, h4.2]
    · exact ⟨h1, h4⟩
    · rintro ⟨-, hx1, hx2⟩
      linarith [h4.2]
    · rintro ⟨-, hx1, hx2⟩
      linarith [h4.2]
  · push_neg at h2
    have hge1 : dep + c ≤ (h : ℚ) := by
      by_contra hlt
      push_neg at hlt
      exact h4 ⟨h2.1, hlt⟩
    have hge2 : dep + c + 8 ≤ (h : ℚ) := by
      by_contra hlt
      push_neg at hlt
      exact h3 ⟨hge1, hlt⟩
    cases st <;> simp only [inState, reduceCtorEq, iff_true, iff_false]
    · exact h1
    · rintro ⟨-, hx | hx⟩ <;> linarith [h2.1, h2.2]
    · rintro ⟨-, hx1, hx2⟩
      linarith
    · rintro ⟨-, hx1, hx2⟩
      linarith
    · exact ⟨h1, hge2, h2.2⟩

/-- Witness for C1 at a wrapping sleep interval: `sleep_start = 22`,
`duration = 7` makes the asleep hour-set `{22, 23, 0, 1, 2, 3, 4}`, and
hour 3 is classified asleep. -/
theorem schedule_partition_witness :
    (0 : ℚ) < 1 ∧
    (inState 9 1 22 7 3 AState.asleep ↔ classifyHour 9 1 22 7 3 = AState.asleep) ∧
    classifyHour 9 1 22 7 3 = AState.asleep ∧
    (List.range 24).filter (fun h => decide (asleepAt 22 7 h)) = [0, 1, 2, 3, 4, 22, 23] :=
  ⟨by norm_num,
   schedule_partition 9 1 22 7 3 (by norm_num) AState.asleep,
   by norm_num [classifyHour, asleepAt, pmod24],
   by norm_num [asleepAt, pmod24, List.range_succ]⟩

/-- C2 (code bug): a work-from-home agent whose sleep interval wraps past
midnight — `sleep_start = 23`, `duration = 6`, reachable from
`work_start = 6` — is credited for all 24 hours, because the awake test
`sleep_start <= hour < (sleep_start + dur) % 24` is vacuously false on a
wrapped interval; the wrap-aware sleep interval contains 6 integer hours,
so the claimed credit count is 18, not 24. -/
theorem wfh_wraparound_credits_all_day :
    pmod24 (6 - 6 - 1 + 24) = 23 ∧
    (wfhHomeCreditHours 23 6).length = 24 ∧
    sleepHourCount 23 6 = 6 ∧
    (wfhHomeCreditHours 23 6).length ≠ 24 - sleepHourCount 23 6 := by
  refine ⟨by norm_num [pmod24], ?_, ?_, ?_⟩ <;>
    norm_num [wfhHomeCreditHours, wfhAsleepTest, sleepHourCount, asleepAt, pmod24,
      List.range_succ]

/-- Counterexample to C3: hour 16 of a walk agent with departure 7 and
commute duration 1 is a commuting-back hour, yet the source credits no
edge at all — the route (here the nonempty path `[(1,2,0)]`) is not
credited on the return commute. -/
theorem walk_commuting_back_hour_uncredited :
    classifyHour 7 1 22 7 16 = AState.commutingBack ∧
    commuteHourCredits Mode.walk 7 1 22 7 (0, 1, 0) (2, 3, 0) (some [(1, 2, 0)]) 16 = [] := by
  have hcl : classifyHour 7 1 22 7 16 = AState.commutingBack := by
    norm_num [classifyHour, asleepAt, pmod24]
  exact ⟨hcl, by simp [commuteHourCredits, hcl]⟩

/-- C3 (amended): for walk/other agents, route-based crediting applies
only during commuting-out hours — each edge of the resolved path is then
credited once — while commuting-back hours produce no edge credits. -/
theorem route_credit_commuting_out_only (m : Mode) (dep c s d : ℚ)
    (homeE workE : EdgeId) (p : List EdgeId) (route : Option (List EdgeId)) (h : ℕ)
    (hm : m = Mode.walk ∨ m = Mode.other) :
    (classifyHour dep c s d h = AState.commutingOut →
      commuteHourCredits m dep c s d homeE workE (some p) h = p) ∧
    (classifyHour dep c s d h = AState.commutingBack →
      commuteHourCredits m dep c s d homeE workE route h = []) := by
  rcases hm with hm | hm <;> subst hm <;>
    exact ⟨fun hcl => by simp [commuteHourCredits, hcl],
           fun hcl => by simp [commuteHourCredits, hcl]⟩

/-- Witness for C3 (amended): a walk agent at its commuting-out hour 7
credits exactly the resolved path. -/
theorem route_credit_commuting_out_only_witness :
    (Mode.walk = Mode.walk ∨ Mode.walk = Mode.other) ∧
    classifyHour 7 1 22 7 7 = AState.commutingOut ∧
    commuteHourCredits Mode.walk 7 1 22 7 (0, 1, 0) (2, 3, 0) (some [(1, 2, 0)]) 7 =
      [(1, 2, 0)] := by
  have hcl : classifyHour 7 1 22 7 7 = AState.commutingOut := by
    norm_num [classifyHour, asleepAt, pmod24]
  exact ⟨Or.inl rfl, hcl,
    (route_credit_commuting_out_only Mode.walk 7 1 22 7 (0, 1, 0) (2, 3, 0) [(1, 2, 0)]
      none 7 (Or.inl rfl)).1 hcl⟩

/-- C4: drive and carpool agents apply zero edge credits during every
commuting hour, outbound or return: the crediting chain has no branch for
those modes. -/
theorem drive_carpool_commuting_no_credit (m : Mode) (dep c s d : ℚ)
    (homeE workE : EdgeId) (route : Option (List EdgeId)) (h : ℕ)
    (hm : m = Mode.drive ∨ m = Mode.carpool)
    (hcl : classifyHour dep c s d h = AState.commutingOut ∨
           classifyHour dep c s d h = AState.commutingBack) :
    commuteHourCredits m dep c s d homeE workE route h = [] := by
  rcases hm with hm | hm <;> subst hm <;> rcases hcl with hcl | hcl <;>
    simp [commuteHourCredits, hcl]

/-- Witness for C4: a drive agent at its commuting-out hour 7 credits
nothing. -/
theorem drive_carpool_commuting_no_credit_witness :
    (Mode.drive = Mode.drive ∨ Mode.drive = Mode.carpool) ∧
    classifyHour 7 1 22 7 7 = AState.commutingOut ∧
    commuteHourCredits Mode.drive 7 1 22 7 (0, 1, 0) (2, 3, 0) none 7 = [] := by
  have hcl : classifyHour 7 1 22 7 7 = AState.commutingOut := by
    norm_num [classifyHour, asleepAt, pmod24]
  exact ⟨Or.inl rfl, hcl,
    drive_carpool_commuting_no_credit Mode.drive 7 1 22 7 (0, 1, 0) (2, 3, 0) none 7
      (Or.inl rfl) (Or.inl hcl)⟩

/-- Counterexample to C5: hour 16 of a walk agent with departure 7.5 and
commute duration 0.5 is a commuting-back hour; with no path available the
source credits nothing at that hour — the home-edge fallback fires only on
the outbound leg. -/
theorem no_path_commuting_back_no_fallback :
    classifyHour (15 / 2) (1 / 2) 22 7 16 = AState.commutingBack ∧
    commuteHourCredits Mode.walk (15 / 2) (1 / 2) 22 7 (0, 1, 0) (2, 3, 0) none 16 = [] := by
  have hcl : classifyHour (15 / 2) (1 / 2) 22 7 16 = AState.commutingBack := by
    norm_num [classifyHour, asleepAt, pmod24]
  refine ⟨hcl, ?_⟩
  unfold commuteHourCredits
  rw [hcl]

/-- C5 (amended): for walk/other agents, every commuting-out hour with no
path between the home and work nodes credits the home edge exactly once
and nothing else (the `except NetworkXNoPath` fallback, which is total —
no exception reaches the caller). -/
theorem no_path_fallback_home_credit (m : Mode) (dep c s d : ℚ)
    (homeE workE : EdgeId) (h : ℕ) (hm : m = Mode.walk ∨ m = Mode.other)
    (hcl : classifyHour dep c s d h = AState.commutingOut) :
    commuteHourCredits m dep c s d homeE workE none h = [homeE] := by
  rcases hm with hm | hm <;> subst hm <;> simp [commuteHourCredits, hcl]

/-- Witness for C5 (amended): an other-mode agent at its commuting-out
hour 7 with no path credits exactly the home edge once. -/
theorem no_path_fallback_home_credit_witness :
    (Mode.other = Mode.walk ∨ Mode.other = Mode.other) ∧
    classifyHour 7 1 22 7 7 = AState.commutingOut ∧
    commuteHourCredits Mode.other 7 1 22 7 (0, 1, 0) (2, 3, 0) none 7 = [(0, 1, 0)] := by
  have hcl : classifyHour 7 1 22 7 7 = AState.commutingOut := by
    norm_num [classifyHour, asleepAt, pmod24]
  exact ⟨Or.inr rfl, hcl,
    no_path_fallback_home_credit Mode.other 7 1 22 7 (0, 1, 0) (2, 3, 0) 7 (Or.inr rfl) hcl⟩

/-- Counterexample to C6: hour 18 of a transit agent with departure 9 and
commute duration 1 is a commuting-back hour, yet the source credits
neither the home edge nor the work edge there. -/
theorem transit_commuting_back_no_credit :
    classifyHour 9 1 23 6 18 = AState.commutingBack ∧
    commuteHourCredits Mode.transit 9 1 23 6 (0, 1, 0) (2, 3, 0) none 18 = [] := by
  have hcl : classifyHour 9 1 23 6 18 = AState.commutingBack := by
    norm_num [classifyHour, asleepAt, pmod24]
  exact ⟨hcl, by simp [commuteHourCredits, hcl]⟩

/-- C6 (amended): a transit agent credits exactly one unit to the home
edge and one to the work edge during every commuting-out hour (and, when
the two edges differ, each receives count exactly 1); commuting-back hours
credit nothing. -/
theorem transit_commuting_out_credits_both (dep c s d : ℚ) (homeE workE : EdgeId)
    (route : Option (List EdgeId)) (h : ℕ)
    (hcl : classifyHour dep c s d h = AState.commutingOut) :
    commuteHourCredits Mode.transit dep c s d homeE workE route h = [homeE, workE] ∧
    (homeE ≠ workE →
      (commuteHourCredits Mode.transit dep c s d homeE workE route h).count homeE = 1 ∧
      (commuteHourCredits Mode.transit dep c s d homeE workE route h).count workE = 1) := by
  have hcr : commuteHourCredits Mode.transit dep c s d homeE workE route h =
      [homeE, workE] := by
    simp [commuteHourCredits, hcl]
  refine ⟨hcr, fun hne => ?_⟩
  rw [hcr]
  constructor
  · simp [List.count_cons, List.count_nil, hne]
  · simp [List.count_cons, List.count_nil, Ne.symm hne]

/-- Witness for C6 (amended): a transit agent at its commuting-out hour 9
credits the home edge and the work edge once each. -/
theorem transit_commuting_out_credits_both_witness :
    classifyHour 9 1 23 6 9 = AState.commutingOut ∧
    commuteHourCredits Mode.transit 9 1 23 6 (0, 1, 0) (2, 3, 0) none 9 =
      [(0, 1, 0), (2, 3, 0)] := by
  have hcl : classifyHour 9 1 23 6 9 = AState.commutingOut := by
    norm_num [classifyHour, asleepAt, pmod24]
  exact ⟨hcl,
    (transit_commuting_out_credits_both 9 1 23 6 (0, 1, 0) (2, 3, 0) none 9 hcl).1⟩

theorem le_creditOne (st : Counters) (h0 : ℕ) (e0 : EdgeId) (h : ℕ) (e : EdgeId) :
    st h e ≤ creditOne st h0 e0 h e := by
  unfold creditOne
  split_ifs <;> omega

theorem applyCredits_monotone (ops : List (ℕ × EdgeId)) (st : Counters)
    (h : ℕ) (e : EdgeId) : st h e ≤ applyCredits st ops h e := by
  induction ops generalizing st with
  | nil => exact le_refl _
  | cons op rest ih =>
      exact le_trans (le_creditOne st op.1 op.2 h e) (ih (creditOne st op.1 op.2))

/-- C7: every counter is monotonically non-decreasing under any sequence
of credit operations (no operation decrements), and every row of the
finalized table has a strictly positive count and an hour in `[0, 23]`. -/
theorem accumulator_monotone_positive_rows (st : Counters) (ops : List (ℕ × EdgeId))
    (h : ℕ) (e : EdgeId) (es : List EdgeId) (row : EdgeId × ℕ × ℕ) :
    st h e ≤ applyCredits st ops h e ∧
    (row ∈ finalizeTable es (applyCredits st ops) → 0 < row.2.2 ∧ row.2.1 ≤ 23) := by
  refine ⟨applyCredits_monotone ops st h e, fun hrow => ?_⟩
  unfold finalizeTable at hrow
  simp only [List.mem_flatMap, List.mem_map, List.mem_filter, List.mem_range,
    decide_eq_true_eq] at hrow
  obtain ⟨hr, hhr, er, ⟨hmem, hpos⟩, heq⟩ := hrow
  rw [← heq]
  refine ⟨hpos, ?_⟩
  show hr ≤ 23
  omega

/-- Witness for C7: applying one credit at hour 1 yields a finalized row
with count 1 at hour 1, and the counter did not decrease. -/
theorem accumulator_monotone_positive_rows_witness :
    (((0, 0, 0), 1, 1) ∈
      finalizeTable [(0, 0, 0)] (applyCredits initCounters [(1, (0, 0, 0))])) ∧
    initCounters 1 (0, 0, 0) ≤ applyCredits initCounters [(1, (0, 0, 0))] 1 (0, 0, 0) ∧
    (0 < (((0, 0, 0) : EdgeId), 1, 1).2.2 ∧ (((0, 0, 0) : EdgeId), 1, 1).2.1 ≤ 23) := by
  have hmem : ((((0, 0, 0) : EdgeId), 1, 1) ∈
      finalizeTable [(0, 0, 0)] (applyCredits initCounters [(1, (0, 0, 0))])) := by
    decide
  exact ⟨hmem,
    (accumulator_monotone_positive_rows initCounters [(1, (0, 0, 0))] 1 (0, 0, 0)
      [(0, 0, 0)] ((0, 0, 0), 1, 1)).1,
    (accumulator_monotone_positive_rows initCounters [(1, (0, 0, 0))] 1 (0, 0, 0)
      [(0, 0, 0)] ((0, 0, 0), 1, 1)).2 hmem⟩

theorem pickWeighted_lt_length (ws : List ℚ) (u : ℚ) (h0 : 0 ≤ u) (hu : u < ws.sum) :
    pickWeighted ws u < ws.length := by
  induction ws generalizing u with
  | nil =>
      simp at hu
      linarith
  | cons w ws ih =>
      unfold pickWeighted
      split_ifs with hw
      · simp
      · push_neg at hw
        have := ih (u - w) (by linarith) (by simp [List.sum_cons] at hu; linarith)
        simpa using Nat.succ_lt_succ this

theorem pickWeighted_pos_weight (ws : List ℚ) (u : ℚ) (hw : ∀ w ∈ ws, 0 ≤ w)
    (h0 : 0 ≤ u) (hu : u < ws.sum) : 0 < ws.getD (pickWeighted ws u) 0 := by
  induction ws generalizing u with
  | nil =>
      simp at hu
      linarith
  | cons w ws ih =>
      unfold pickWeighted
      split_ifs with hlt
      · simpa using lt_of_le_of_lt h0 hlt
      · push_neg at hlt
        have hrec := ih (u - w) (fun x hx => hw x (List.mem_cons_of_mem w hx))
          (by linarith) (by simp [List.sum_cons] at hu; linarith)
        simpa using hrec

theorem pickWeighted_eq_iff (ws : List ℚ) (u : ℚ) (i : ℕ) (hw : ∀ w ∈ ws, 0 ≤ w)
    (h0 : 0 ≤ u) (hu : u < ws.sum) :
    pickWeighted ws u = i ↔
      ((ws.take i).sum ≤ u ∧ u < (ws.take (i + 1)).sum) := by
  induction ws generalizing u i with
  | nil =>
      simp at hu
      linarith
  | cons w ws ih =>
      have hwnn : 0 ≤ w := hw w (List.mem_cons_self w ws)
      have hwsnn : ∀ x ∈ ws, 0 ≤ x := fun x hx => hw x (List.mem_cons_of_mem w hx)
      unfold pickWeighted
      split_ifs with hlt
      · cases i with
        | zero =>
            simp only [List.take_succ_cons, List.take_zero, List.sum_cons, List.sum_nil,
              add_zero]
            exact iff_of_true (by simp) ⟨h0, hlt⟩
        | succ j =>
            have htk : 0 ≤ (ws.take j).sum :=
              List.sum_nonneg (fun x hx => hwsnn x (List.take_subset j ws hx))
            simp only [List.take_succ_cons, List.sum_cons]
            refine iff_of_false (by simp) ?_
            push_neg
            intro hle
            linarith
      · push_neg at hlt
        have hurec0 : 0 ≤ u - w := by linarith
        have hurec1 : u - w < ws.sum := by simp [List.sum_cons] at hu; linarith
        cases i with
        | zero =>
            simp only [List.take_succ_cons, List.take_zero, List.sum_cons, List.sum_nil,
              add_zero]
            refine iff_of_false (by simp) ?_
            push_neg
            intro hle
            linarith
        | succ j =>
            have hrec := ih (u - w) j hwsnn hurec0 hurec1
            simp only [List.take_succ_cons, List.sum_cons, Nat.succ_inj]
            rw [hrec]
            constructor
            · rintro ⟨ha, hb⟩
              exact ⟨by linarith, by linarith⟩
            · rintro ⟨ha, hb⟩
              exact ⟨by linarith, by linarith⟩

/-- C8: destination sampling with non-negative weights and an in-range
uniform draw always returns a record, that record has strictly positive
weight (a zero-weight record is never selected), and the set of draws
selecting index `i` is exactly the cumulative-weight interval of `i`, of
length equal to the weight of `i` — selection probability proportional to
weight. -/
theorem weighted_sampling_pos_proportional (od : List FlowRecord) (u : ℚ)
    (hw : ∀ r ∈ od, 0 ≤ r.S000) (h0 : 0 ≤ u)
    (hu : u < (od.map FlowRecord.S000).sum) :
    ∃ r0, sampleDestination od u = some r0 ∧ 0 < r0.S000 ∧
      ∀ i, pickWeighted (od.map FlowRecord.S000) u = i ↔
        (((od.map FlowRecord.S000).take i).sum ≤ u ∧
          u < ((od.map FlowRecord.S000).take (i + 1)).sum) := by
  have hwm : ∀ w ∈ od.map FlowRecord.S000, 0 ≤ w := by
    intro w hwmem
    obtain ⟨r, hr, rfl⟩ := List.mem_map.1 hwmem
    exact hw r hr
  have hlt : pickWeighted (od.map FlowRecord.S000) u < od.length := by
    have := pickWeighted_lt_length (od.map FlowRecord.S000) u h0 hu
    simpa using this
  refine ⟨od.get ⟨pickWeighted (od.map FlowRecord.S000) u, hlt⟩, ?_, ?_, ?_⟩
  · have hne : od.isEmpty = false := by
      cases od with
      | nil => simp at hlt
      | cons a l => rfl
    unfold sampleDestination
    rw [if_neg (by simp [hne])]
    rw [← List.get?_eq_getElem?]
    exact List.get?_eq_get hlt
  · have hpos := pickWeighted_pos_weight (od.map FlowRecord.S000) u hwm h0 hu
    have hmap : (od.map FlowRecord.S000).getD (pickWeighted (od.map FlowRecord.S000) u) 0
        = (od.get ⟨pickWeighted (od.map FlowRecord.S000) u, hlt⟩).S000 := by
      rw [List.getD_eq_get?, List.get?_map, List.get?_eq_get hlt]
      rfl
    rwa [hmap] at hpos
  · intro i
    exact pickWeighted_eq_iff (od.map FlowRecord.S000) u i hwm h0 hu

/-- A two-record flow table in which the first record has weight zero. -/
def odExample : List FlowRecord :=
  [FlowRecord.mk "24510000100" "24510000200" 0,
   FlowRecord.mk "24510000100" "24510000300" 2]

/-- Witness for C8: on a table with weights `[0, 2]` and draw `u = 1`, the
sampler returns the positive-weight record, never the zero-weight one. -/
theorem weighted_sampling_pos_proportional_witness :
    (0 : ℚ) ≤ 1 ∧ (1 : ℚ) < (odExample.map FlowRecord.S000).sum ∧
    sampleDestination odExample 1 = some (FlowRecord.mk "24510000100" "24510000300" 2) ∧
    (0 : ℚ) < (FlowRecord.mk "24510000100" "24510000300" 2).S000 := by
  have hw : ∀ r ∈ odExample, 0 ≤ r.S000 := by
    intro r hr
    rcases List.mem_cons.1 hr with rfl | hr0
    · norm_num
    · rcases List.mem_singleton.1 hr0 with rfl
      norm_num
  have hsum : (odExample.map FlowRecord.S000).sum = 2 := by
    norm_num [odExample]
  have heval : sampleDestination odExample 1 =
      some (FlowRecord.mk "24510000100" "24510000300" 2) := by
    norm_num [sampleDestination, odExample, pickWeighted]
  obtain ⟨r0, hr0, hpos, -⟩ :=
    weighted_sampling_pos_proportional odExample 1 hw (by norm_num)
      (by rw [hsum]; norm_num)
  refine ⟨by norm_num, by rw [hsum]; norm_num, heval, ?_⟩
  rw [heval] at hr0
  have hr0inj := Option.some.inj hr0
  rw [hr0inj]
  exact hpos

/-- C9: an agent whose resolution fails at any enumerated step — home
tract geometry missing, no roads in the home tract, empty flow table,
work tract geometry missing, or no roads in the work tract — produces the
empty credit list, leaves every counter unchanged, and (being a total
function) raises nothing. -/
theorem agent_failure_zero_credits (m : Mode) (homeGeom : Option Unit)
    (homeRoads : List EdgeId) (kHome : ℕ) (d workStart : ℚ) (od : List FlowRecord)
    (uDest : ℚ) (workGeomOf : String → Option Unit) (workRoadsOf : String → List EdgeId)
    (kWork : ℕ) (dep c : ℚ) (route : Option (List EdgeId))
    (hfail : homeGeom = none ∨ homeRoads = [] ∨
      (m ≠ Mode.wfh ∧ (od = [] ∨
        ∃ r, sampleDestination od uDest = some r ∧
          (workGeomOf r.w_geocode = none ∨ workRoadsOf r.w_geocode = [])))) :
    simulateAgent m homeGeom homeRoads kHome d workStart od uDest workGeomOf workRoadsOf
        kWork dep c route = [] ∧
    ∀ st : Counters, applyCredits st
      (simulateAgent m homeGeom homeRoads kHome d workStart od uDest workGeomOf workRoadsOf
        kWork dep c route) = st := by
  have hz : simulateAgent m homeGeom homeRoads kHome d workStart od uDest workGeomOf
      workRoadsOf kWork dep c route = [] := by
    rcases hfail with hfail | hfail | ⟨hm, hfail⟩
    · subst hfail
      rfl
    · subst hfail
      cases homeGeom with
      | none => rfl
      | some u => simp [simulateAgent]
    · cases homeGeom with
      | none => rfl
      | some u =>
        unfold simulateAgent
        by_cases hre : homeRoads.isEmpty
        · simp [hre]
        · simp only [hre, if_false, Bool.false_eq_true]
          cases hidx : homeRoads[kHome % homeRoads.length]? with
          | none => simp
          | some homeE =>
            simp only [hm, if_false, Bool.false_eq_true, ite_false]
            rcases hfail with hod | ⟨r, hr, hwfail⟩
            · subst hod
              simp [sampleDestination]
            · rw [hr]
              rcases hwfail with hwg | hwr
              · simp [hwg]
              · cases hg : workGeomOf r.w_geocode with
                | none => simp [hg]
                | some v => simp [hg, hwr]
  exact ⟨hz, fun st => by rw [hz]; rfl⟩

/-- Witness for C9: a walk agent whose home tract geometry is missing
contributes no credits and leaves the counters unchanged. -/
theorem agent_failure_zero_credits_witness :
    ((none : Option Unit) = none ∨ ([] : List EdgeId) = [] ∨
      (Mode.walk ≠ Mode.wfh ∧ (([] : List FlowRecord) = [] ∨
        ∃ r, sampleDestination [] 0 = some r ∧
          ((fun _ => (none : Option Unit)) r.w_geocode = none ∨
            (fun _ => ([] : List EdgeId)) r.w_geocode = [])))) ∧
    simulateAgent Mode.walk none [] 0 7 9 [] 0 (fun _ => none) (fun _ => []) 0 8 1
      none = [] ∧
    applyCredits initCounters
      (simulateAgent Mode.walk none [] 0 7 9 [] 0 (fun _ => none) (fun _ => []) 0 8 1
        none) = initCounters :=
  ⟨Or.inl rfl,
   (agent_failure_zero_credits Mode.walk none [] 0 7 9 [] 0 (fun _ => none)
      (fun _ => []) 0 8 1 none (Or.inl rfl)).1,
   (agent_failure_zero_credits Mode.walk none [] 0 7 9 [] 0 (fun _ => none)
      (fun _ => []) 0 8 1 none (Or.inl rfl)).2 initCounters⟩

/-- C10: the number of agents simulated for a variable equals
`max(worker count, 0)`, and a zero or negative reported count generates no
agents and applies no credits. -/
theorem nonpositive_workers_no_agents (numWorkers : ℤ)
    (credits : ℕ → List (ℕ × EdgeId)) :
    (agentsForVariable numWorkers).length = (max numWorkers 0).toNat ∧
    (numWorkers ≤ 0 → simulateVariable numWorkers credits = []) := by
  constructor
  · unfold agentsForVariable
    split_ifs with hn
    · simp
      omega
    · simp [List.length_range]
      omega
  · intro hn
    unfold simulateVariable agentsForVariable
    simp [if_pos hn]

/-- Witness for C10: a reported count of −2 yields zero agents and an
empty credit list. -/
theorem nonpositive_workers_no_agents_witness :
    ((-2 : ℤ) ≤ 0) ∧
    (agentsForVariable (-2)).length = (max (-2 : ℤ) 0).toNat ∧
    simulateVariable (-2) (fun _ => [(0, ((0, 0, 0) : EdgeId))]) = [] :=
  ⟨by norm_num,
   (nonpositive_workers_no_agents (-2) (fun _ => [(0, (0, 0, 0))])).1,
   (nonpositive_workers_no_agents (-2) (fun _ => [(0, (0, 0, 0))])).2 (by norm_num)⟩

end FootTraffic
